import Mathlib

/-
  Verification of the FastF1 live-timing reconstruction engine
  (fastf1/api.py) against its specification.

  Times are modelled as integer nanosecond counts: pandas Timedelta
  arithmetic is exact integer nanosecond arithmetic, so + , - , < on ℤ
  mirror it faithfully for the in-range values the feed produces.
  Wire values keep their source representation: a field that may be
  absent is an Option, a sub-record whose Value key may be absent is a
  nested Option, and string payloads stay String.
  A Python run that raises an uncaught exception (IndexError, KeyError,
  TypeError, parse failure) is modelled by the step returning none.
-/

namespace FastF1

/-! ## Negative-index helpers

Python list access `l[-1]` and `l[-2]` is modelled with an explicit
slot number: slot 0 is the last element, slot 1 the second to last.
Out-of-range reads return none (Python raises IndexError there). -/

/-- Read the element at Python index `-(k+1)`, none when out of range. -/
def getNeg (l : List α) (k : ℕ) : Option α :=
  if k < l.length then l.get? (l.length - 1 - k) else none

/-- Write the element at Python index `-(k+1)`; indices stay in range in
every state reachable by the reconstruction pass, so the out-of-range
no-op branch is never exercised there. -/
def setNeg (l : List α) (k : ℕ) (v : α) : List α :=
  if k < l.length then l.set (l.length - 1 - k) v else l

/-! ## Duration string parsing

The source calls pandas to_timedelta on strings such as '00:00:' ++ v
for sector values and '00:' ++ v for lap times.  The parsers below
return the same number of seconds for the well-formed digit strings the
feed carries and none where pandas raises a parse error. -/

/-- Split a character list at every occurrence of a separator. -/
def splitChar (c : Char) : List Char → List (List Char)
  | [] => [[]]
  | x :: rest =>
    let r := splitChar c rest
    if x = c then [] :: r
    else
      match r with
      | [] => [[x]]
      | h :: t => (x :: h) :: t

/-- Check that a character list is a nonempty run of decimal digits. -/
def allDigits (cs : List Char) : Bool :=
  !cs.isEmpty && cs.all (fun ch => ch.isDigit)

/-- Numeric value of a decimal digit string. -/
def digitsVal (cs : List Char) : ℕ :=
  cs.foldl (fun a ch => 10 * a + (ch.toNat - 48)) 0

/-- Parse a seconds field 'SS' or 'SS.fff' to nanoseconds, none when
the string is not of that shape (pandas raises there). -/
def parseSecs (s : String) : Option ℤ :=
  match splitChar '.' s.toList with
  | [a] => if allDigits a then some ((digitsVal a : ℤ) * 1000000000) else none
  | [a, b] =>
    if allDigits a && allDigits b && b.length ≤ 9 then
      some ((digitsVal a : ℤ) * 1000000000 +
        (digitsVal b : ℤ) * (10 : ℤ) ^ (9 - b.length))
    else none
  | _ => none

/-- Parse a LastLapTime value: pandas reads '00:' ++ v, so v is either
plain seconds or 'M:SS.fff'. -/
def parseLap (s : String) : Option ℤ :=
  match splitChar ':' s.toList with
  | [a] => parseSecs (String.mk a)
  | [m, a] =>
    if allDigits m then
      (parseSecs (String.mk a)).map
        (fun q => 60 * (digitsVal m : ℤ) * 1000000000 + q)
    else none
  | _ => none

/-! ## Lap reconstruction state

One record per driver per lap, kept as parallel column lists exactly as
the source keeps them in the per-driver dictionary; a slot holds none
until a field arrives. -/

/-- Column lists of one driver of the lap reconstructor. -/
structure DriverData where
  Time : List (Option ℤ)
  Driver : List (Option String)
  LastLapTime : List (Option String)
  NumberOfLaps : List (Option ℤ)
  NumberOfPitStops : List (Option ℤ)
  PitOutTime : List (Option ℤ)
  PitInTime : List (Option ℤ)
  Sector1Time : List (Option String)
  Sector2Time : List (Option String)
  Sector3Time : List (Option String)
  SpeedI1 : List (Option String)
  SpeedI2 : List (Option String)
  SpeedFL : List (Option String)
  SpeedST : List (Option String)
  deriving Repr, DecidableEq

/-- Best-known back-computed lap start data: base and delta give the
inferred start as base - delta; ts0 is set at creation, ts1 and ts2
appear once sector 2 and 3 values have been folded in. -/
structure TimeRef where
  base : ℤ
  delta : ℤ
  ts0 : ℤ
  ts1 : Option ℤ
  ts2 : Option ℤ
  deriving Repr, DecidableEq

/-- Per-driver flag lists: one time reference slot and one lock flag
per record, parallel to the column lists. -/
structure DriverFlags where
  time_reference : List (Option TimeRef)
  locked_times : List Bool
  deriving Repr, DecidableEq

/-- Full per-driver state of the lap reconstructor. -/
structure DriverState where
  data : DriverData
  flags : DriverFlags
  deriving Repr, DecidableEq

/-- Fresh per-driver state: one open record with every field none,
exactly what the first-reference initialisation appends. -/
def initDriverState : DriverState :=
  ⟨⟨[none], [none], [none], [none], [none], [none], [none],
    [none], [none], [none], [none], [none], [none], [none]⟩,
   ⟨[none], [false]⟩⟩

/-! ## Wire blocks

The decoded per-driver block of one timing_data frame, restricted to
the keys the lap and stream passes read.  Nested Options mirror the
two-level presence checks of the source ('key in block' and then
'Value' in the sub-record). -/

/-- One sector sub-record; value is the Value key, some '' is an
explicitly empty measure. -/
structure SectorEntry where
  value : Option String
  deriving Repr, DecidableEq

/-- Sectors arrive either as a dense list or as a sparse map keyed by
the decimal sector index. -/
inductive SectorsUpd where
  | ofList (es : List SectorEntry)
  | ofMap (m : List (ℕ × SectorEntry))
  deriving Repr, DecidableEq

/-- Iteration of the source loop over a Sectors update: a list yields
positional indices, a keyed map yields its own integer keys. -/
def sectorPairs : SectorsUpd → List (ℕ × SectorEntry)
  | .ofList es => es.enum
  | .ofMap m => m

/-- Speeds sub-records for the four known traps; outer Option is key
presence, inner Option is presence of the Value key. -/
structure SpeedsUpd where
  I1 : Option (Option String)
  I2 : Option (Option String)
  FL : Option (Option String)
  ST : Option (Option String)
  deriving Repr, DecidableEq

/-- One decoded per-driver block of a timing_data frame. -/
structure Block where
  NumberOfPitStops : Option ℤ
  Sectors : Option SectorsUpd
  Speeds : Option SpeedsUpd
  PitOut : Option Bool
  InPit : Option Bool
  LastLapTime : Option (Option String)
  NumberOfLaps : Option ℤ
  deriving Repr, DecidableEq

/-- Block with every key absent. -/
def emptyBlock : Block := ⟨none, none, none, none, none, none, none⟩

/-- Block carrying only a NumberOfPitStops value. -/
def pitBlock (p : ℤ) : Block := { emptyBlock with NumberOfPitStops := some p }

/-- Block carrying a single keyed sector sub-record. -/
def sectorBlock (n : ℕ) (v : String) : Block :=
  { emptyBlock with Sectors := some (.ofMap [(n, ⟨some v⟩)]) }

/-- Block carrying only a LastLapTime value. -/
def llBlock (v : String) : Block := { emptyBlock with LastLapTime := some (some v) }

/-! ## Slot selection -/

/-- Row index that an incoming block populates: the current record
(slot 0, Python -1) unless at least two records exist and the packet
time is under the previous record's last-known time plus five seconds
(5000000000 nanoseconds), in which case the previous record (slot 1,
Python -2).  Comparing against a previous record whose time was never
set raises in the source, hence none. -/
def selectSlot (times : List (Option ℤ)) (time : ℤ) : Option ℕ :=
  if 1 < times.length then
    match getNeg times 1 with
    | some (some lastTime) => some (if time < lastTime + 5000000000 then 1 else 0)
    | some none => none
    | none => none
  else some 0

/-! ## Sector processing -/

/-- Write a raw sector value to the column of sector index n; an index
outside 0-2 with a present value is a KeyError in the source. -/
def setSectorCol (d : DriverData) (n slot : ℕ) (v : Option String) :
    Option DriverData :=
  match n with
  | 0 => some { d with Sector1Time := setNeg d.Sector1Time slot v }
  | 1 => some { d with Sector2Time := setNeg d.Sector2Time slot v }
  | 2 => some { d with Sector3Time := setNeg d.Sector3Time slot v }
  | _ => none

/-- Store part of one (index, sub-record) pair of a Sectors update:
write the raw value to its column when the Value key is present. -/
def procSectorStore (slot : ℕ) (d : DriverData) (p : ℕ × SectorEntry) :
    Option DriverData :=
  match p.2.value with
  | some v => setSectorCol d p.1 slot (some v)
  | none => some d

/-- Seed stage of the heuristic: the first sector-1 value of a record
creates its time reference. -/
def refSeed (noRef0 : Bool) (time : ℤ) (slot : ℕ) (n : ℕ)
    (hasMeasure : Bool) (val : String) (f : DriverFlags) :
    Option DriverFlags :=
  if n = 0 ∧ hasMeasure ∧ noRef0 then do
    let q ← parseSecs val
    pure ({ f with
      time_reference := setNeg f.time_reference slot
        (some ⟨time, q, q, none, none⟩) })
  else pure f

/-- Sector-2 stage of the heuristic: adopt the candidate start computed
from the sector-2 value when it is earlier than the stored one, and
record ts1. -/
def refSector2 (noRef0 : Bool) (time : ℤ) (slot : ℕ) (n : ℕ)
    (hasMeasure : Bool) (val : String) (f : DriverFlags) :
    Option DriverFlags :=
  if n = 1 ∧ hasMeasure ∧
      (!noRef0 && ((getNeg f.time_reference slot).getD none).isSome) then do
    let q ← parseSecs val
    match (getNeg f.time_reference slot).getD none with
    | some r =>
      let oldRef := r.base - r.delta
      let newDelta := q + r.ts0
      let r1 := if time - newDelta < oldRef then
          { r with base := time, delta := newDelta } else r
      pure ({ f with
        time_reference := setNeg f.time_reference slot
          (some { r1 with ts1 := some q }) })
    | none => none
  else pure f

/-- Sector-3 stage of the heuristic: same adoption rule with the
accumulated ts0 plus ts1 delta, recording ts2. -/
def refSector3 (noRef0 : Bool) (time : ℤ) (slot : ℕ) (n : ℕ)
    (hasMeasure : Bool) (val : String) (f : DriverFlags) :
    Option DriverFlags :=
  if n = 2 ∧ hasMeasure ∧
      ((!noRef0 && ((getNeg f.time_reference slot).getD none).isSome) &&
        (match (getNeg f.time_reference slot).getD none with
          | some r => r.ts1.isSome
          | none => false)) then do
    let q ← parseSecs val
    match (getNeg f.time_reference slot).getD none with
    | some r =>
      match r.ts1 with
      | some t1 =>
        let oldRef := r.base - r.delta
        let newDelta := q + t1 + r.ts0
        let r1 := if time - newDelta < oldRef then
            { r with base := time, delta := newDelta } else r
        pure ({ f with
          time_reference := setNeg f.time_reference slot
            (some { r1 with ts2 := some q }) })
      | none => none
    | none => none
  else pure f

/-- Time-reference heuristic of one (index, sub-record) pair.  noRef0
is the snapshot taken before the whole block, exactly as the source
computes no_time_reference once up front, which is why a reference
seeded by sector 1 of this very block is not used by its sector 2;
the ts0 and ts1 presence tests are re-evaluated against the current
reference before each stage, as the source does inside its loop. -/
def procSectorRef (noRef0 : Bool) (time : ℤ) (slot : ℕ)
    (f : DriverFlags) (p : ℕ × SectorEntry) : Option DriverFlags := do
  let hasMeasure : Bool :=
    match p.2.value with
    | some v => v ≠ ""
    | none => false
  let f ← refSeed noRef0 time slot p.1 hasMeasure (p.2.value.getD "") f
  let f ← refSector2 noRef0 time slot p.1 hasMeasure (p.2.value.getD "") f
  refSector3 noRef0 time slot p.1 hasMeasure (p.2.value.getD "") f

/-- Process one (index, sub-record) pair of a Sectors update: store the
raw value, then run the time-reference heuristic.  The two parts read
and write disjoint state, so their sequencing matches the interleaved
order of the source. -/
def procSector (noRef0 : Bool) (time : ℤ) (slot : ℕ)
    (st : DriverData × DriverFlags) (p : ℕ × SectorEntry) :
    Option (DriverData × DriverFlags) := do
  let d ← procSectorStore slot st.1 p
  let f ← procSectorRef noRef0 time slot st.2 p
  pure (d, f)

/-- Write every present speed-trap value to its column. -/
def procSpeeds (slot : ℕ) (d : DriverData) (sp : SpeedsUpd) : DriverData :=
  let d := match sp.I1 with
    | some (some v) => { d with SpeedI1 := setNeg d.SpeedI1 slot (some v) }
    | _ => d
  let d := match sp.I2 with
    | some (some v) => { d with SpeedI2 := setNeg d.SpeedI2 slot (some v) }
    | _ => d
  let d := match sp.FL with
    | some (some v) => { d with SpeedFL := setNeg d.SpeedFL slot (some v) }
    | _ => d
  match sp.ST with
  | some (some v) => { d with SpeedST := setNeg d.SpeedST slot (some v) }
  | _ => d

/-- Append a none slot to every column, as the close of a record does. -/
def appendNoneAll (d : DriverData) : DriverData :=
  ⟨d.Time ++ [none], d.Driver ++ [none], d.LastLapTime ++ [none],
   d.NumberOfLaps ++ [none], d.NumberOfPitStops ++ [none],
   d.PitOutTime ++ [none], d.PitInTime ++ [none],
   d.Sector1Time ++ [none], d.Sector2Time ++ [none], d.Sector3Time ++ [none],
   d.SpeedI1 ++ [none], d.SpeedI2 ++ [none], d.SpeedFL ++ [none],
   d.SpeedST ++ [none]⟩

/-! ## The per-entry step

The body of the per-entry translation is split into named stages in
source order: timestamp and driver write, pit-stop count, sector loop,
speed traps, pit in and out flags, last lap time, lap close. -/

/-- Per-packet timestamp write (skipped for a locked record) followed
by the driver id write. -/
def applyTimeDriver (driver : String) (T : ℤ) (slot : ℕ) (noLocked : Bool)
    (d : DriverData) : DriverData :=
  let d := if noLocked then { d with Time := setNeg d.Time slot (some T) } else d
  { d with Driver := setNeg d.Driver slot (some driver) }

/-- Direct overwrite of the pit-stop count when present. -/
def applyPitStops (b : Block) (slot : ℕ) (d : DriverData) : DriverData :=
  match b.NumberOfPitStops with
  | some p => { d with NumberOfPitStops := setNeg d.NumberOfPitStops slot (some p) }
  | none => d

/-- Speed-trap stage of the step. -/
def applySpeeds (b : Block) (slot : ℕ) (d : DriverData) : DriverData :=
  match b.Speeds with
  | some sp => procSpeeds slot d sp
  | none => d

/-- A PitOut value of false records the packet time as pit-out time. -/
def applyPitOut (b : Block) (T : ℤ) (slot : ℕ) (d : DriverData) : DriverData :=
  if b.PitOut = some false then
    { d with PitOutTime := setNeg d.PitOutTime slot (some T) } else d

/-- An InPit value of true records the packet time as pit-in time. -/
def applyInPit (b : Block) (T : ℤ) (slot : ℕ) (d : DriverData) : DriverData :=
  if b.InPit = some true then
    { d with PitInTime := setNeg d.PitInTime slot (some T) } else d

/-- LastLapTime stage: a non-empty value is stored, and when a time
reference exists for the record the timestamp is recomputed as
reference start plus lap time and the record is locked.  This write is
not guarded by the lock flag. -/
def applyLastLap (b : Block) (slot : ℕ) (df : DriverData × DriverFlags) :
    Option (DriverData × DriverFlags) :=
  match b.LastLapTime with
  | some (some v) =>
    if v ≠ "" then do
      let d := { df.1 with LastLapTime := setNeg df.1.LastLapTime slot (some v) }
      let lapTime ← parseLap v
      match getNeg df.2.time_reference slot with
      | some (some tr) =>
        pure ({ d with
                  Time := setNeg d.Time slot (some (tr.base - tr.delta + lapTime)) },
              { df.2 with locked_times := setNeg df.2.locked_times slot true })
      | some none => pure (d, df.2)
      | none => none
    else pure df
  | _ => pure df

/-- NumberOfLaps closes the current record (the write always targets
Python index -1) and appends a fresh all-none record to every list. -/
def applyLapClose (b : Block) (df : DriverData × DriverFlags) : DriverState :=
  match b.NumberOfLaps with
  | some nl =>
    ⟨appendNoneAll { df.1 with
        NumberOfLaps := setNeg df.1.NumberOfLaps 0 (some nl) },
     ⟨df.2.time_reference ++ [none], df.2.locked_times ++ [false]⟩⟩
  | none => ⟨df.1, df.2⟩

/-- Process one timing_data block for one driver, the translation of
the per-entry body of the lap reconstructor; none models an uncaught
exception of the source. -/
def lapsEntryCore (driver : String) (time : ℤ) (b : Block)
    (s : DriverState) : Option DriverState := do
  let slot ← selectSlot s.data.Time time
  let r0 ← getNeg s.flags.time_reference slot
  let lk ← getNeg s.flags.locked_times slot
  let d := applyTimeDriver driver time slot (!lk) s.data
  let d := applyPitStops b slot d
  let (d, f) ← match b.Sectors with
    | some su => (sectorPairs su).foldlM (procSector r0.isNone time slot) (d, s.flags)
    | none => pure (d, s.flags)
  let d := applyInPit b time slot (applyPitOut b time slot (applySpeeds b slot d))
  let (d, f) ← applyLastLap b slot (d, f)
  pure (applyLapClose b (d, f))

/-- Run a sequence of timing_data blocks for one driver from the state
a first reference initialises; none models an aborted pass. -/
def runEntries (driver : String) (es : List (ℤ × Block)) (s : DriverState) :
    Option DriverState :=
  match es with
  | [] => some s
  | e :: rest =>
    match lapsEntryCore driver e.1 e.2 s with
    | some s1 => runEntries driver rest s1
    | none => none

/-- Process a full frame sequence for a driver first seen at its head. -/
def processEntries (driver : String) (es : List (ℤ × Block)) :
    Option DriverState :=
  runEntries driver es initDriverState

/-! ## Empty-tail trimming

After the pass, the last row of a driver frame is dropped when no
informative column of that row is truthy; pandas any() skips missing
values and treats an empty string, a zero count and a zero duration as
false. -/

/-- Last element of a column, none when the column is empty. -/
def lastVal (l : List (Option α)) : Option α :=
  (getNeg l 0).getD none

/-- Python truthiness of an optional integer or duration cell. -/
def truthyZ (o : Option ℤ) : Bool :=
  match o with
  | none => false
  | some n => n ≠ 0

/-- Python truthiness of an optional string cell. -/
def truthyS (o : Option String) : Bool :=
  match o with
  | none => false
  | some s => s ≠ ""

/-- The any() test over the informative columns (all but Time and
Driver) of the last row. -/
def lastRowAny (d : DriverData) : Bool :=
  truthyS (lastVal d.LastLapTime) || truthyZ (lastVal d.NumberOfLaps) ||
  truthyZ (lastVal d.NumberOfPitStops) || truthyZ (lastVal d.PitOutTime) ||
  truthyZ (lastVal d.PitInTime) || truthyS (lastVal d.Sector1Time) ||
  truthyS (lastVal d.Sector2Time) || truthyS (lastVal d.Sector3Time) ||
  truthyS (lastVal d.SpeedI1) || truthyS (lastVal d.SpeedI2) ||
  truthyS (lastVal d.SpeedFL) || truthyS (lastVal d.SpeedST)

/-- Drop the last row of every column. -/
def dropLastAll (d : DriverData) : DriverData :=
  ⟨d.Time.dropLast, d.Driver.dropLast, d.LastLapTime.dropLast,
   d.NumberOfLaps.dropLast, d.NumberOfPitStops.dropLast,
   d.PitOutTime.dropLast, d.PitInTime.dropLast,
   d.Sector1Time.dropLast, d.Sector2Time.dropLast, d.Sector3Time.dropLast,
   d.SpeedI1.dropLast, d.SpeedI2.dropLast, d.SpeedFL.dropLast,
   d.SpeedST.dropLast⟩

/-- Pop the last row when all its informative entries are falsy. -/
def trimLast (d : DriverData) : DriverData :=
  if lastRowAny d then d else dropLastAll d

/-! ## Pit-stop count correction

Post-pass fixup of the NumberOfPitStops column: take the maximum
recorded count, decrement the recorded cells, then walk the recorded
row indices (plus the row count) in reverse, assigning the running
value to every row at or before each boundary and decrementing it at
each step.  Missing values propagate as pandas NaN does. -/

/-- Maximum over the recorded cells of a column, none when the column
holds no value (pandas max skips missing cells). -/
def maxRecorded (col : List (Option ℤ)) : Option ℤ :=
  col.foldl (fun acc x =>
    match acc, x with
    | none, v => v
    | some m, none => some m
    | some m, some v => some (max m v)) none

/-- Row indices holding a recorded value, in ascending order. -/
def recIdxAux : ℕ → List (Option ℤ) → List ℕ
  | _, [] => []
  | i, none :: rest => recIdxAux (i + 1) rest
  | i, some _ :: rest => i :: recIdxAux (i + 1) rest

/-- Row indices of a column holding a recorded value. -/
def recIdx (col : List (Option ℤ)) : List ℕ :=
  recIdxAux 0 col

/-- Assign a value to every row whose index is at or before a boundary. -/
def applyBoundary (v : Option ℤ) (lap : ℕ) (rows : List (Option ℤ)) :
    List (Option ℤ) :=
  rows.enum.map (fun p => if p.1 ≤ lap then v else p.2)

/-- The corrected NumberOfPitStops column of one driver frame. -/
def correctPitStops (col : List (Option ℤ)) : List (Option ℤ) :=
  let dec := col.map (Option.map (fun n => n - 1))
  let ps := maxRecorded col
  let laps := (recIdx col ++ [col.length]).reverse
  (laps.foldl
    (fun st lap => (applyBoundary st.2 lap st.1, st.2.map (fun n => n - 1)))
    (dec, ps)).1

/-! ## Position/gap stream builder

Independent pass over the same frames: a driver block emits one row
when any of Position, GapToLeader or a valued IntervalToPositionAhead
is present, and absent fields of the new row are carried forward from
the previous one. -/

/-- One decoded per-driver block as the stream pass reads it. -/
structure StreamBlock where
  Position : Option String
  GapToLeader : Option String
  IntervalToPositionAhead : Option (Option String)
  deriving Repr, DecidableEq

/-- Column lists of one driver of the stream pass. -/
structure StreamData where
  Time : List ℤ
  Driver : List String
  Position : List (Option String)
  GapToLeader : List (Option String)
  IntervalToPositionAhead : List (Option String)
  deriving Repr, DecidableEq

/-- Fresh stream state for a driver on first reference. -/
def initStreamData : StreamData := ⟨[], [], [], [], []⟩

/-- Pad a field column to the expected row count: a never-filled column
gets none, a column one short repeats its last element. -/
def padCol (l : List (Option String)) (expected : ℕ) : List (Option String) :=
  if l.length = 0 then l ++ [none]
  else if l.length < expected then l ++ [(getNeg l 0).getD none]
  else l

/-- The presence test that makes a block emit a row. -/
def emitsRow (b : StreamBlock) : Bool :=
  b.Position.isSome || b.GapToLeader.isSome ||
  (match b.IntervalToPositionAhead with
   | some (some _) => true
   | _ => false)

/-- Process one frame block of one driver in the stream pass. -/
def streamEntry (driver : String) (time : ℤ) (b : StreamBlock)
    (d : StreamData) : StreamData :=
  let d := match b.Position with
    | some v => { d with Position := d.Position ++ [some v] }
    | none => d
  let d := match b.GapToLeader with
    | some v => { d with GapToLeader := d.GapToLeader ++ [some v] }
    | none => d
  let d := match b.IntervalToPositionAhead with
    | some (some v) =>
      { d with IntervalToPositionAhead := d.IntervalToPositionAhead ++ [some v] }
    | _ => d
  if emitsRow b then
    let d := { d with Time := d.Time ++ [time], Driver := d.Driver ++ [driver] }
    let expected := d.Time.length
    { d with
      Position := padCol d.Position expected,
      GapToLeader := padCol d.GapToLeader expected,
      IntervalToPositionAhead := padCol d.IntervalToPositionAhead expected }
  else d

/-! ## Summary assembler

Per driver the finalized lap rows and the tyre-stint rows are sorted by
time, each lap is as-of matched to the latest stint row at or before
its time, and the joined TotalLaps seed is renumbered with a one-based
running index inside each group of rows sharing a Stint value. -/

/-- One finalized lap row as the summary loop sees it: its time and its
Stint value (NumberOfPitStops + 1). -/
structure LapRow where
  time : ℤ
  stint : ℤ
  deriving Repr, DecidableEq

/-- One tyre-stint row carrying its log time and TotalLaps seed. -/
structure StintRow where
  time : ℤ
  totalLaps : ℤ
  deriving Repr, DecidableEq

/-- One joined row of the summary output. -/
structure JoinedRow where
  time : ℤ
  stint : ℤ
  tyreLife : Option ℤ
  deriving Repr, DecidableEq

/-- Insert a row into a time-sorted list. -/
def insertLap (a : LapRow) : List LapRow → List LapRow
  | [] => [a]
  | b :: bs => if a.time ≤ b.time then a :: b :: bs else b :: insertLap a bs

/-- Sort lap rows by time. -/
def sortLaps (l : List LapRow) : List LapRow :=
  l.foldr insertLap []

/-- Insert a stint row into a time-sorted list. -/
def insertStint (a : StintRow) : List StintRow → List StintRow
  | [] => [a]
  | b :: bs => if a.time ≤ b.time then a :: b :: bs else b :: insertStint a bs

/-- Sort stint rows by time. -/
def sortStints (l : List StintRow) : List StintRow :=
  l.foldr insertStint []

/-- Latest stint row at or before a time, scanning a time-sorted list. -/
def asofMatch (stints : List StintRow) (t : ℤ) : Option StintRow :=
  stints.foldl (fun acc srow => if srow.time ≤ t then some srow else acc) none

/-- Renumber TotalLaps: each row gains the one-based rank of its
position among the rows sharing its Stint value. -/
def renumberStints (rows : List JoinedRow) : List JoinedRow :=
  rows.enum.map (fun p =>
    { p.2 with tyreLife := p.2.tyreLife.map (fun n =>
        n + (((rows.take p.1).filter (fun r => r.stint = p.2.stint)).length + 1)) })

/-- The per-driver summary manipulation: sort, as-of join, renumber. -/
def summaryDriver (laps : List LapRow) (stints : List StintRow) :
    List JoinedRow :=
  let laps := sortLaps laps
  let stints := sortStints stints
  let joined := laps.map (fun lp =>
    ⟨lp.time, lp.stint, (asofMatch stints lp.time).map (fun srow => srow.totalLaps)⟩)
  renumberStints joined

/-! ## Payload decoding

The parse function of the frame decoder, with the JSON reader and the
base64-plus-raw-deflate-plus-utf8 decoder abstracted as fallible
functions; an exception of the source (empty payload indexing, invalid
JSON, bad base64 or deflate data) is an error result that aborts the
surrounding stream comprehension. -/

/-- Left brace character, the JSON object opener the decoder tests for. -/
def lbrace : Char := Char.ofNat 123

/-- Uncaught exceptions the decoder can raise. -/
inductive PyErr where
  | indexError
  | jsonError
  | zlibError
  deriving Repr, DecidableEq

/-- Result of a successful decode: a JSON value or a raw opaque string
returned together with a logged warning. -/
inductive POut (J : Type) where
  | jsonVal (v : J)
  | raw (s : String)
  deriving Repr, DecidableEq

/-- First character of a payload, none when it is empty (indexing an
empty payload raises in the source). -/
def pyFirst (s : String) : Option Char :=
  s.toList.head?

/-- Strip every leading and trailing double-quote character, the
behavior of the strip call of the source. -/
def stripQuotes (s : String) : String :=
  String.mk (((s.toList.dropWhile (fun ch => ch = '"')).reverse.dropWhile
    (fun ch => ch = '"')).reverse)

/-- Decode a payload with the compression flag off, the shape of the
recursive call of the source. -/
def parseFlat (jl : String → Option J) (text : String) :
    Except PyErr (POut J) :=
  match pyFirst text with
  | none => .error .indexError
  | some c =>
    if c = lbrace then
      match jl text with
      | some v => .ok (.jsonVal v)
      | none => .error .jsonError
    else
      let t1 := if c = '"' then stripQuotes text else text
      .ok (.raw t1)

/-- Decode one payload: JSON when it opens with a brace, else strip
quotes, then inflate and re-decode when the channel is compressed,
else return the remaining text raw with a warning. -/
def parsePayload (jl : String → Option J) (infl : String → Option String)
    (text : String) (zipped : Bool) : Except PyErr (POut J) :=
  match pyFirst text with
  | none => .error .indexError
  | some c =>
    if c = lbrace then
      match jl text with
      | some v => .ok (.jsonVal v)
      | none => .error .jsonError
    else
      let t1 := if c = '"' then stripQuotes text else text
      if zipped then
        match infl t1 with
        | some t2 => parseFlat jl t2
        | none => .error .zlibError
      else .ok (.raw t1)

/-! ## Derived views and invariants -/

/-- Inferred lap start of the current open record, base minus delta of
its time reference. -/
def refStart (s : DriverState) : Option ℤ :=
  ((getNeg s.flags.time_reference 0).getD none).map (fun r => r.base - r.delta)

/-- Column lists of one driver all hold n rows. -/
def wfData (d : DriverData) (n : ℕ) : Prop :=
  d.Time.length = n ∧ d.Driver.length = n ∧ d.LastLapTime.length = n ∧
  d.NumberOfLaps.length = n ∧ d.NumberOfPitStops.length = n ∧
  d.PitOutTime.length = n ∧ d.PitInTime.length = n ∧
  d.Sector1Time.length = n ∧ d.Sector2Time.length = n ∧
  d.Sector3Time.length = n ∧ d.SpeedI1.length = n ∧ d.SpeedI2.length = n ∧
  d.SpeedFL.length = n ∧ d.SpeedST.length = n

/-- Flag lists of one driver both hold n slots. -/
def wfFlags (f : DriverFlags) (n : ℕ) : Prop :=
  f.time_reference.length = n ∧ f.locked_times.length = n

/-- Every column and flag list of a driver state holds n entries, one
per lap record. -/
def wfDims (s : DriverState) (n : ℕ) : Prop :=
  wfData s.data n ∧ wfFlags s.flags n

/-- Stream column lists of one driver all match the emitted row count. -/
def streamWF (d : StreamData) : Prop :=
  d.Driver.length = d.Time.length ∧ d.Position.length = d.Time.length ∧
  d.GapToLeader.length = d.Time.length ∧
  d.IntervalToPositionAhead.length = d.Time.length

/-- Number of elements of a list at or above a threshold. -/
def countGe (laps : List ℕ) (j : ℕ) : ℕ :=
  (laps.filter (fun l => j ≤ l)).length

/-- A two-record driver state exercising slot selection: the previous
record's last-known time is 10 seconds, the current record's 12. -/
def twoRecState : DriverState :=
  ⟨⟨[some 10000000000, some 12000000000], [some "44", some "44"], [none, none], [none, none],
    [none, none], [none, none], [none, none], [none, none], [none, none],
    [none, none], [none, none], [none, none], [none, none], [none, none]⟩,
   ⟨[none, none], [false, false]⟩⟩

/-- A single-record driver state whose record has been locked by a
LastLapTime arrival with its time reference present. -/
def lockedState : DriverState :=
  ⟨⟨[some 160000000000], [some "44"], [some "1:20.0"], [none], [none],
    [none], [none], [some "20.0"], [none], [none], [none], [none], [none],
    [none]⟩,
   ⟨[some ⟨100000000000, 20000000000, 20000000000, none, none⟩], [true]⟩⟩

/-- A stream state holding one fully populated emitted row. -/
def oneRowStream : StreamData :=
  ⟨[10], ["44"], [some "3"], [some "1.2"], [none]⟩

end FastF1

namespace FastF1

/-! ## Basic lemmas -/

theorem length_setNeg (l : List α) (k : ℕ) (v : α) :
    (setNeg l k v).length = l.length := by
  unfold setNeg
  split <;> simp

theorem getNeg_cons_two (a b : α) : getNeg [a, b] 1 = some a := by
  simp [getNeg]

theorem getNeg_exists_of_lt (l : List α) (k : ℕ) (h : k < l.length) :
    ∃ a, getNeg l k = some a := by
  unfold getNeg
  rw [if_pos h]
  have hlt : l.length - 1 - k < l.length := by omega
  exact ⟨l.get ⟨_, hlt⟩, List.get?_eq_get hlt⟩


/-! ## Step equations and preservation lemmas -/

theorem pitStep (s : DriverState) (driver : String) (T p : ℤ) (slot : ℕ)
    (r0 : Option TimeRef) (lk : Bool)
    (hsel : selectSlot s.data.Time T = some slot)
    (hr0 : getNeg s.flags.time_reference slot = some r0)
    (hlk0 : getNeg s.flags.locked_times slot = some lk) :
    lapsEntryCore driver T (pitBlock p) s =
      some ⟨{ s.data with
                Time := if lk then s.data.Time else setNeg s.data.Time slot (some T),
                Driver := setNeg s.data.Driver slot (some driver),
                NumberOfPitStops := setNeg s.data.NumberOfPitStops slot (some p) },
            s.flags⟩ := by
  cases lk <;>
    · simp only [lapsEntryCore, hsel, hr0, hlk0, pitBlock, emptyBlock,
        Option.bind_eq_bind, Option.some_bind, if_true, if_false]
      rfl

theorem setSectorCol_time (d : DriverData) (n slot : ℕ) (v : Option String)
    (d2 : DriverData) (h : setSectorCol d n slot v = some d2) :
    d2.Time = d.Time := by
  rcases n with - | - | - | n <;>
    simp only [setSectorCol, Option.some.injEq, reduceCtorEq] at h <;>
    subst h <;> rfl

theorem procSectorStore_time (slot : ℕ) (d : DriverData) (p : ℕ × SectorEntry)
    (d2 : DriverData) (h : procSectorStore slot d p = some d2) :
    d2.Time = d.Time := by
  unfold procSectorStore at h
  rcases hv : p.2.value with - | v <;> rw [hv] at h
  · cases h
    rfl
  · exact setSectorCol_time _ _ _ _ _ h

theorem procSector_time (n0 : Bool) (t : ℤ) (sl : ℕ)
    (st st2 : DriverData × DriverFlags) (p : ℕ × SectorEntry)
    (h : procSector n0 t sl st p = some st2) : st2.1.Time = st.1.Time := by
  simp only [procSector, Option.bind_eq_bind, Option.bind_eq_some,
    Option.pure_def, Option.some.injEq] at h
  obtain ⟨d, hd, f, hf, hpure⟩ := h
  subst hpure
  exact procSectorStore_time _ _ _ _ hd

theorem foldlM_procSector_time (n0 : Bool) (t : ℤ) (sl : ℕ)
    (pairs : List (ℕ × SectorEntry)) (st st2 : DriverData × DriverFlags)
    (h : pairs.foldlM (procSector n0 t sl) st = some st2) :
    st2.1.Time = st.1.Time := by
  induction pairs generalizing st with
  | nil =>
    simp only [List.foldlM_nil, Option.pure_def, Option.some.injEq] at h
    subst h
    rfl
  | cons p rest ih =>
    simp only [List.foldlM_cons, Option.bind_eq_bind, Option.bind_eq_some] at h
    obtain ⟨st1, h1, h2⟩ := h
    rw [ih st1 h2, procSector_time _ _ _ _ _ _ h1]

theorem procSpeeds_time (sl : ℕ) (d : DriverData) (sp : SpeedsUpd) :
    (procSpeeds sl d sp).Time = d.Time := by
  rcases sp with ⟨_ | (_ | v1), _ | (_ | v2), _ | (_ | v3), _ | (_ | v4)⟩ <;> rfl

theorem applyMid_time (b : Block) (T : ℤ) (slot : ℕ) (d : DriverData) :
    (applyInPit b T slot (applyPitOut b T slot (applySpeeds b slot d))).Time =
      d.Time := by
  unfold applyInPit applyPitOut applySpeeds
  split <;> split <;> split <;> simp [procSpeeds_time]

theorem applyLastLap_skip (b : Block) (slot : ℕ) (df : DriverData × DriverFlags)
    (hllt : b.LastLapTime = none ∨ b.LastLapTime = some none ∨
      b.LastLapTime = some (some "")) :
    applyLastLap b slot df = some df := by
  rcases hllt with h | h | h <;> rw [applyLastLap, h] <;> rfl

/-! ## Stream builder lemmas -/

theorem lastVal_append (l : List (Option α)) (x : Option α) :
    lastVal (l ++ [x]) = x := by
  unfold lastVal getNeg
  simp

theorem padCol_short (l : List (Option String)) (expected : ℕ)
    (h : l.length < expected) : padCol l expected = l ++ [lastVal l] := by
  unfold padCol
  rcases l with - | ⟨a, l⟩
  · simp [lastVal, getNeg]
  · rw [if_neg (by simp), if_pos (by simpa using h)]
    rfl

theorem padCol_full (l : List (Option String)) (expected : ℕ)
    (h1 : l.length = expected) (h2 : 0 < expected) : padCol l expected = l := by
  unfold padCol
  rw [if_neg (by omega), if_neg (by omega)]

/-! ## Well-formedness preservation lemmas -/

theorem wfFlags_refSeed {f f2 : DriverFlags} {n slot k : ℕ} {n0 hm : Bool}
    {t : ℤ} {val : String} (hwf : wfFlags f n)
    (h : refSeed n0 t slot k hm val f = some f2) : wfFlags f2 n := by
  unfold refSeed at h
  split at h
  · simp only [Option.bind_eq_bind, Option.bind_eq_some, Option.pure_def,
      Option.some.injEq] at h
    obtain ⟨q, -, h⟩ := h
    subst h
    exact ⟨by simp [length_setNeg, hwf.1], hwf.2⟩
  · cases h
    exact hwf

theorem wfFlags_refSector2 {f f2 : DriverFlags} {n slot k : ℕ} {n0 hm : Bool}
    {t : ℤ} {val : String} (hwf : wfFlags f n)
    (h : refSector2 n0 t slot k hm val f = some f2) : wfFlags f2 n := by
  unfold refSector2 at h
  split at h <;> (try split at h) <;>
    simp only [Option.bind_eq_bind, Option.bind_eq_some, Option.pure_def,
      Option.some.injEq, reduceCtorEq, and_false, exists_false] at h <;>
    first
      | (obtain ⟨q, -, h⟩ := h
         subst h
         exact ⟨by simp [length_setNeg, hwf.1], hwf.2⟩)
      | (subst h
         exact hwf)
      | exact h.elim

theorem wfFlags_refSector3 {f f2 : DriverFlags} {n slot k : ℕ} {n0 hm : Bool}
    {t : ℤ} {val : String} (hwf : wfFlags f n)
    (h : refSector3 n0 t slot k hm val f = some f2) : wfFlags f2 n := by
  unfold refSector3 at h
  split at h <;> (try split at h) <;> (try split at h) <;>
    simp only [Option.bind_eq_bind, Option.bind_eq_some, Option.pure_def,
      Option.some.injEq, reduceCtorEq, and_false, exists_false] at h <;>
    first
      | (obtain ⟨q, -, h⟩ := h
         subst h
         exact ⟨by simp [length_setNeg, hwf.1], hwf.2⟩)
      | (subst h
         exact hwf)
      | exact h.elim

theorem wfFlags_procSectorRef {f f2 : DriverFlags} {n slot : ℕ} {n0 : Bool}
    {t : ℤ} {p : ℕ × SectorEntry} (hwf : wfFlags f n)
    (h : procSectorRef n0 t slot f p = some f2) : wfFlags f2 n := by
  simp only [procSectorRef, Option.bind_eq_bind, Option.bind_eq_some] at h
  obtain ⟨fa, ha, fb, hb, hc⟩ := h
  exact wfFlags_refSector3 (wfFlags_refSector2 (wfFlags_refSeed hwf ha) hb) hc

theorem wfData_setSectorCol {d d2 : DriverData} {n k slot : ℕ} {v : Option String}
    (hwf : wfData d n) (h : setSectorCol d k slot v = some d2) : wfData d2 n := by
  rcases k with - | - | - | k <;>
    simp only [setSectorCol, Option.some.injEq, reduceCtorEq] at h <;>
    subst h <;>
    simp_all [wfData, length_setNeg]

theorem wfData_procSectorStore {d d2 : DriverData} {n slot : ℕ}
    {p : ℕ × SectorEntry} (hwf : wfData d n)
    (h : procSectorStore slot d p = some d2) : wfData d2 n := by
  unfold procSectorStore at h
  rcases hv : p.2.value with - | v <;> rw [hv] at h
  · cases h
    exact hwf
  · exact wfData_setSectorCol hwf h

theorem wf_procSector {st st2 : DriverData × DriverFlags} {n : ℕ} {n0 : Bool}
    {t : ℤ} {sl : ℕ} {p : ℕ × SectorEntry}
    (hwf : wfData st.1 n ∧ wfFlags st.2 n)
    (h : procSector n0 t sl st p = some st2) :
    wfData st2.1 n ∧ wfFlags st2.2 n := by
  simp only [procSector, Option.bind_eq_bind, Option.bind_eq_some,
    Option.pure_def, Option.some.injEq] at h
  obtain ⟨d, hd, f, hf, hpure⟩ := h
  subst hpure
  exact ⟨wfData_procSectorStore hwf.1 hd, wfFlags_procSectorRef hwf.2 hf⟩

theorem wf_foldlM_procSector {n : ℕ} {n0 : Bool} {t : ℤ} {sl : ℕ}
    (pairs : List (ℕ × SectorEntry)) (st st2 : DriverData × DriverFlags)
    (hwf : wfData st.1 n ∧ wfFlags st.2 n)
    (h : pairs.foldlM (procSector n0 t sl) st = some st2) :
    wfData st2.1 n ∧ wfFlags st2.2 n := by
  induction pairs generalizing st with
  | nil =>
    simp only [List.foldlM_nil, Option.pure_def, Option.some.injEq] at h
    subst h
    exact hwf
  | cons p rest ih =>
    simp only [List.foldlM_cons, Option.bind_eq_bind, Option.bind_eq_some] at h
    obtain ⟨st1, h1, h2⟩ := h
    exact ih st1 (wf_procSector hwf h1) h2

theorem wfData_applyTimeDriver {d : DriverData} {n : ℕ} (driver : String)
    (T : ℤ) (slot : ℕ) (nl : Bool) (hwf : wfData d n) :
    wfData (applyTimeDriver driver T slot nl d) n := by
  unfold applyTimeDriver
  split <;> simp_all [wfData, length_setNeg]

theorem wfData_applyPitStops {d : DriverData} {n : ℕ} (b : Block) (slot : ℕ)
    (hwf : wfData d n) : wfData (applyPitStops b slot d) n := by
  unfold applyPitStops
  split <;> simp_all [wfData, length_setNeg]

theorem wfData_procSpeeds {d : DriverData} {n : ℕ} (slot : ℕ) (sp : SpeedsUpd)
    (hwf : wfData d n) : wfData (procSpeeds slot d sp) n := by
  rcases sp with ⟨_ | (_ | v1), _ | (_ | v2), _ | (_ | v3), _ | (_ | v4)⟩ <;>
    simp_all [procSpeeds, wfData, length_setNeg]

theorem wfData_applyMid {d : DriverData} {n : ℕ} (b : Block) (T : ℤ)
    (slot : ℕ) (hwf : wfData d n) :
    wfData (applyInPit b T slot (applyPitOut b T slot (applySpeeds b slot d))) n := by
  have h1 : wfData (applySpeeds b slot d) n := by
    unfold applySpeeds
    split
    · exact wfData_procSpeeds _ _ hwf
    · exact hwf
  have h2 : wfData (applyPitOut b T slot (applySpeeds b slot d)) n := by
    unfold applyPitOut
    split <;> simp_all [wfData, length_setNeg]
  unfold applyInPit
  split <;> simp_all [wfData, length_setNeg]

theorem wf_applyLastLap {df df2 : DriverData × DriverFlags} {n : ℕ}
    (b : Block) (slot : ℕ) (h : applyLastLap b slot df = some df2)
    (hwf : wfData df.1 n ∧ wfFlags df.2 n) :
    wfData df2.1 n ∧ wfFlags df2.2 n := by
  obtain ⟨hwd, hwl⟩ := hwf
  unfold applyLastLap at h
  split at h
  · split at h
    · simp only [Option.bind_eq_bind, Option.bind_eq_some, Option.pure_def,
        Option.some.injEq] at h
      obtain ⟨q, -, h⟩ := h
      split at h <;>
        first
          | (cases h
             constructor <;> simp_all [wfData, wfFlags, length_setNeg])
          | cases h
    · cases h
      exact ⟨hwd, hwl⟩
  · cases h
    exact ⟨hwd, hwl⟩

theorem wf_applyLapClose {df : DriverData × DriverFlags} {n : ℕ} (b : Block)
    (hwf : wfData df.1 n ∧ wfFlags df.2 n) :
    ∃ m, wfData (applyLapClose b df).data m ∧
      wfFlags (applyLapClose b df).flags m := by
  obtain ⟨hwd, hwl⟩ := hwf
  unfold applyLapClose
  rcases b.NumberOfLaps with - | nl
  · exact ⟨n, hwd, hwl⟩
  · refine ⟨n + 1, ?_, ?_⟩ <;>
      simp_all [wfData, wfFlags, appendNoneAll, length_setNeg]

theorem wf_lapsEntryCore {s s1 : DriverState} {n : ℕ} (driver : String)
    (T : ℤ) (b : Block) (hwf : wfDims s n)
    (h : lapsEntryCore driver T b s = some s1) : ∃ m, wfDims s1 m := by
  obtain ⟨hwd, hwl⟩ := hwf
  rcases hbSec : b.Sectors with - | su <;>
    simp only [lapsEntryCore, hbSec, Option.bind_eq_bind, Option.bind_eq_some,
      Option.pure_def, Option.some.injEq] at h
  · obtain ⟨slot, hslot, r0, hr0, lk, hlk2, y, hyeq, df2, hdf2, hfin⟩ := h
    have hpre : wfData (applyPitStops b slot
        (applyTimeDriver driver T slot (!lk) s.data)) n :=
      wfData_applyPitStops _ _ (wfData_applyTimeDriver _ _ _ _ hwd)
    have hyw : wfData y.1 n ∧ wfFlags y.2 n := by
      rw [← hyeq]
      exact ⟨hpre, hwl⟩
    have hdfw := wf_applyLastLap b slot hdf2 ⟨wfData_applyMid _ _ _ hyw.1, hyw.2⟩
    rw [← hfin]
    exact wf_applyLapClose b hdfw
  · obtain ⟨slot, hslot, r0, hr0, lk, hlk2, y, hy, df2, hdf2, hfin⟩ := h
    have hpre : wfData (applyPitStops b slot
        (applyTimeDriver driver T slot (!lk) s.data)) n :=
      wfData_applyPitStops _ _ (wfData_applyTimeDriver _ _ _ _ hwd)
    have hyw := wf_foldlM_procSector (sectorPairs su) _ y ⟨hpre, hwl⟩ hy
    have hdfw := wf_applyLastLap b slot hdf2 ⟨wfData_applyMid _ _ _ hyw.1, hyw.2⟩
    rw [← hfin]
    exact wf_applyLapClose b hdfw

theorem wf_runEntries (driver : String) (es : List (ℤ × Block))
    (s s1 : DriverState) (n : ℕ) (hwf : wfDims s n)
    (h : runEntries driver es s = some s1) : ∃ m, wfDims s1 m := by
  induction es generalizing s n with
  | nil =>
    unfold runEntries at h
    cases h
    exact ⟨n, hwf⟩
  | cons e rest ih =>
    unfold runEntries at h
    rcases hstep : lapsEntryCore driver e.1 e.2 s with - | s2 <;>
      rw [hstep] at h
    · cases h
    · obtain ⟨m, hm⟩ := wf_lapsEntryCore driver e.1 e.2 hwf hstep
      exact ih s2 m hm h

/-! ## Pit-correction lemmas -/

theorem length_applyBoundary (v : Option ℤ) (lap : ℕ) (rows : List (Option ℤ)) :
    (applyBoundary v lap rows).length = rows.length := by
  simp [applyBoundary]

theorem applyBoundary_get (v : Option ℤ) (lap : ℕ) (rows : List (Option ℤ))
    (j : ℕ) :
    (applyBoundary v lap rows).get? j =
      (rows.get? j).map (fun old => if j ≤ lap then v else old) := by
  unfold applyBoundary
  rw [List.get?_map, List.get?_enum]
  rcases rows.get? j with - | x <;> simp

theorem countGe_nil (j : ℕ) : countGe [] j = 0 := rfl

theorem countGe_cons (a : ℕ) (l : List ℕ) (j : ℕ) :
    countGe (a :: l) j = (if j ≤ a then 1 else 0) + countGe l j := by
  unfold countGe
  rcases h : decide (j ≤ a) with - | -
  · simp_all [List.filter_cons]
  · simp_all [List.filter_cons]
    omega

theorem foldl_boundaries_get (laps : List ℕ) (rows : List (Option ℤ))
    (v : Option ℤ) (j : ℕ) (hj : j < rows.length)
    (hsort : laps.Pairwise (fun a b => b < a)) :
    ((laps.foldl (fun st lap =>
        (applyBoundary st.2 lap st.1, st.2.map (fun n => n - 1)))
        (rows, v)).1).get? j =
      (if countGe laps j = 0 then rows.get? j
       else some (v.map (fun n => n - ((countGe laps j : ℤ) - 1)))) := by
  induction laps generalizing rows v with
  | nil => simp [countGe_nil]
  | cons lap rest ih =>
    obtain ⟨hlt, hrest⟩ := List.pairwise_cons.mp hsort
    rw [List.foldl_cons]
    have hj2 : j < (applyBoundary v lap rows).length := by
      rw [length_applyBoundary]
      exact hj
    rw [ih (applyBoundary v lap rows) (v.map (fun n => n - 1)) hj2 hrest,
      countGe_cons]
    obtain ⟨x, hx⟩ : ∃ x, rows.get? j = some x :=
      ⟨rows.get ⟨j, hj⟩, List.get?_eq_get hj⟩
    by_cases hja : j ≤ lap
    · rw [if_pos hja]
      rcases Nat.eq_zero_or_pos (countGe rest j) with h0 | hpos
      · rw [h0, if_pos rfl, applyBoundary_get, hx, if_neg (by omega)]
        cases v <;> simp [hja]
      · rw [if_neg (by omega), if_neg (by omega)]
        cases v <;> simp only [Option.map_map, Option.map_none, Option.map_some,
          Option.some.injEq] <;>
          [rfl;
           (congr 1
            funext n
            simp only [Function.comp_apply]
            push_cast
            ring)]
    · rw [if_neg hja]
      have h0 : countGe rest j = 0 := by
        unfold countGe
        rw [List.length_eq_zero]
        rw [List.filter_eq_nil_iff]
        intro a ha
        have := hlt a ha
        simp only [decide_eq_true_eq]
        omega
      rw [h0, if_pos (by omega), if_pos rfl, applyBoundary_get, hx]
      simp [hja]

theorem recIdxAux_mem (col : List (Option ℤ)) :
    ∀ i x : ℕ, x ∈ recIdxAux i col → i ≤ x ∧ x < i + col.length := by
  induction col with
  | nil =>
    intro i x h
    cases h
  | cons a rest ih =>
    intro i x h
    rcases a with - | av
    · have := ih (i + 1) x h
      simp only [List.length_cons]
      omega
    · rcases List.mem_cons.mp h with heq | hmem
      · subst heq
        simp
      · have := ih (i + 1) x hmem
        simp only [List.length_cons]
        omega

theorem recIdxAux_pairwise (col : List (Option ℤ)) (i : ℕ) :
    (recIdxAux i col).Pairwise (fun a b => a < b) := by
  induction col generalizing i with
  | nil => exact List.Pairwise.nil
  | cons a rest ih =>
    rcases a with - | av
    · exact ih (i + 1)
    · refine List.pairwise_cons.mpr ⟨?_, ih (i + 1)⟩
      intro x hx
      have := recIdxAux_mem rest (i + 1) x hx
      omega

theorem recIdx_lt_length {col : List (Option ℤ)} {x : ℕ}
    (h : x ∈ recIdx col) : x < col.length := by
  have := recIdxAux_mem col 0 x h
  omega

theorem countGe_reverse (l : List ℕ) (j : ℕ) :
    countGe l.reverse j = countGe l j := by
  unfold countGe
  rw [List.filter_reverse, List.length_reverse]

theorem countGe_append (l1 l2 : List ℕ) (j : ℕ) :
    countGe (l1 ++ l2) j = countGe l1 j + countGe l2 j := by
  unfold countGe
  rw [List.filter_append, List.length_append]

/-! ## Trimming lemmas -/

theorem truthyS_false (o : Option String) :
    truthyS o = false ↔ (o = none ∨ o = some "") := by
  cases o <;> simp [truthyS]

theorem truthyZ_false (o : Option ℤ) :
    truthyZ o = false ↔ (o = none ∨ o = some 0) := by
  cases o <;> simp [truthyZ]

/-! ## Time-reference step equations -/

theorem c3step1 (drv v1 : String) (T1 q1 : ℤ)
    (h1 : parseSecs v1 = some q1) (h1n : v1 ≠ "") :
    lapsEntryCore drv T1 (sectorBlock 0 v1) initDriverState =
      some ⟨⟨[some T1], [some drv], [none], [none], [none], [none], [none],
        [some v1], [none], [none], [none], [none], [none], [none]⟩,
       ⟨[some ⟨T1, q1, q1, none, none⟩], [false]⟩⟩ := by
  simp [lapsEntryCore, initDriverState, selectSlot, getNeg, setNeg,
    applyTimeDriver, applyPitStops, applySpeeds, applyPitOut, applyInPit,
    applyLastLap, applyLapClose, procSector, procSectorStore, procSectorRef,
    refSeed, refSector2, refSector3, setSectorCol, sectorBlock, emptyBlock,
    sectorPairs, h1, h1n]

theorem c3step2 (drv v1 v2 : String) (T2 q1 q2 B D t : ℤ)
    (h2 : parseSecs v2 = some q2) (h2n : v2 ≠ "") :
    lapsEntryCore drv T2 (sectorBlock 1 v2)
      ⟨⟨[some t], [some drv], [none], [none], [none], [none], [none],
        [some v1], [none], [none], [none], [none], [none], [none]⟩,
       ⟨[some ⟨B, D, q1, none, none⟩], [false]⟩⟩ =
      some ⟨⟨[some T2], [some drv], [none], [none], [none], [none], [none],
        [some v1], [some v2], [none], [none], [none], [none], [none]⟩,
       ⟨[some (if T2 - (q2 + q1) < B - D then ⟨T2, q2 + q1, q1, some q2, none⟩
          else ⟨B, D, q1, some q2, none⟩ : TimeRef)], [false]⟩⟩ := by
  by_cases hc : T2 - (q2 + q1) < B - D <;>
    simp [lapsEntryCore, selectSlot, getNeg, setNeg,
      applyTimeDriver, applyPitStops, applySpeeds, applyPitOut, applyInPit,
      applyLastLap, applyLapClose, procSector, procSectorStore, procSectorRef,
      refSeed, refSector2, refSector3, setSectorCol, sectorBlock, emptyBlock,
      sectorPairs, h2, h2n, hc]

theorem c3step3 (drv v1 v2 v3 : String) (T3 q1 q2 q3 B D t : ℤ)
    (h3 : parseSecs v3 = some q3) (h3n : v3 ≠ "") :
    lapsEntryCore drv T3 (sectorBlock 2 v3)
      ⟨⟨[some t], [some drv], [none], [none], [none], [none], [none],
        [some v1], [some v2], [none], [none], [none], [none], [none]⟩,
       ⟨[some ⟨B, D, q1, some q2, none⟩], [false]⟩⟩ =
      some ⟨⟨[some T3], [some drv], [none], [none], [none], [none], [none],
        [some v1], [some v2], [some v3], [none], [none], [none], [none]⟩,
       ⟨[some (if T3 - (q3 + q2 + q1) < B - D then
            ⟨T3, q3 + q2 + q1, q1, some q2, some q3⟩
          else ⟨B, D, q1, some q2, some q3⟩ : TimeRef)], [false]⟩⟩ := by
  by_cases hc : T3 - (q3 + q2 + q1) < B - D <;>
    simp [lapsEntryCore, selectSlot, getNeg, setNeg,
      applyTimeDriver, applyPitStops, applySpeeds, applyPitOut, applyInPit,
      applyLastLap, applyLapClose, procSector, procSectorStore, procSectorRef,
      refSeed, refSector2, refSector3, setSectorCol, sectorBlock, emptyBlock,
      sectorPairs, h3, h3n, hc]

theorem c3step4 (drv v1 v2 v3 v4 : String) (T4 q1 L B D t : ℤ)
    (r1 r2 : Option ℤ) (h4 : parseLap v4 = some L) (h4n : v4 ≠ "") :
    lapsEntryCore drv T4 (llBlock v4)
      ⟨⟨[some t], [some drv], [none], [none], [none], [none], [none],
        [some v1], [some v2], [some v3], [none], [none], [none], [none]⟩,
       ⟨[some ⟨B, D, q1, r1, r2⟩], [false]⟩⟩ =
      some ⟨⟨[some (B - D + L)], [some drv], [some v4], [none], [none], [none],
        [none], [some v1], [some v2], [some v3], [none], [none], [none],
        [none]⟩,
       ⟨[some ⟨B, D, q1, r1, r2⟩], [true]⟩⟩ := by
  simp [lapsEntryCore, selectSlot, getNeg, setNeg,
    applyTimeDriver, applyPitStops, applySpeeds, applyPitOut, applyInPit,
    applyLastLap, applyLapClose, llBlock, emptyBlock, h4, h4n]

/-! ## Claim theorems

One theorem per claim of the specification review, each with its
counterexample or witness where required. -/

/-- Claim C1: for a driver whose lap state already holds at least two
records, with a last-known timestamp on the previous record, an
incoming field update at time T targets the previous record (slot -2)
exactly when T is below that timestamp plus the five-second grace
window and the current record (slot -1) otherwise; a NumberOfPitStops
update lands in the selected slot. -/
theorem C1_slot_selection (s : DriverState) (driver : String)
    (T tprev p : ℤ)
    (hlen : 1 < s.data.Time.length)
    (hprev : getNeg s.data.Time 1 = some (some tprev))
    (href : s.flags.time_reference.length = s.data.Time.length)
    (hlk : s.flags.locked_times.length = s.data.Time.length) :
    selectSlot s.data.Time T =
      some (if T < tprev + 5000000000 then 1 else 0) ∧
    ∃ s1, lapsEntryCore driver T (pitBlock p) s = some s1 ∧
      s1.data.NumberOfPitStops =
        setNeg s.data.NumberOfPitStops
          (if T < tprev + 5000000000 then 1 else 0) (some p) := by
  have hsel : selectSlot s.data.Time T =
      some (if T < tprev + 5000000000 then 1 else 0) := by
    unfold selectSlot
    rw [if_pos hlen, hprev]
  refine ⟨hsel, ?_⟩
  have hslot1 : (if T < tprev + 5000000000 then 1 else 0) < s.data.Time.length := by
    split <;> omega
  obtain ⟨r0, hr0⟩ := getNeg_exists_of_lt _ _ (href ▸ hslot1)
  obtain ⟨lk, hlk0⟩ := getNeg_exists_of_lt _ _ (hlk ▸ hslot1)
  exact ⟨_, pitStep s driver T p _ r0 lk hsel hr0 hlk0, rfl⟩

/-- Witness for C1 at the specification's examples: 4.9 seconds past
the previous record's last-known time targets the previous record,
5.1 seconds past it the current one. -/
theorem C1_slot_selection_witness :
    1 < twoRecState.data.Time.length ∧
    selectSlot twoRecState.data.Time 14900000000 = some 1 ∧
    selectSlot twoRecState.data.Time 15100000000 = some 0 ∧
    (∃ s1, lapsEntryCore "44" 14900000000 (pitBlock 7) twoRecState = some s1 ∧
      s1.data.NumberOfPitStops = [some 7, none]) := by
  obtain ⟨ha1, s1, hs1, hn1⟩ :=
    C1_slot_selection twoRecState "44" 14900000000 10000000000 7 (by decide)
      (by decide) (by decide) (by decide)
  obtain ⟨ha2, -⟩ :=
    C1_slot_selection twoRecState "44" 15100000000 10000000000 7 (by decide)
      (by decide) (by decide) (by decide)
  refine ⟨by decide, by simpa using ha1, by simpa using ha2, s1, hs1, ?_⟩
  rw [hn1]
  decide

/-- Counterexample to claim C2 as stated: for raw recorded pit counts
0, 0, 1, 1, 2 across five laps the corrected sequence is -3, -2, -1,
0, 1, so it does not start at zero. -/
theorem C2_counterexample :
    correctPitStops [some 0, some 0, some 1, some 1, some 2] =
      [some (-3), some (-2), some (-1), some 0, some 1] ∧
    (correctPitStops [some 0, some 0, some 1, some 1, some 2]).get? 0 ≠
      some (some 0) := by decide

/-- Claim C2 (amended): the reverse walk assigns to lap j the maximum
recorded count minus the number of recorded lap indices at or after j,
so consecutive recorded boundaries differ by exactly one but the first
lap ends at zero only when the number of recorded boundaries equals
the maximum. -/
theorem C2_pit_correction (col : List (Option ℤ)) (M : ℤ) (j : ℕ)
    (hM : maxRecorded col = some M) (hj : j < col.length) :
    (correctPitStops col).get? j = some (some (M - countGe (recIdx col) j)) := by
  have hpair : ((recIdx col ++ [col.length]).reverse).Pairwise
      (fun a b => b < a) := by
    rw [List.pairwise_reverse]
    refine List.pairwise_append.mpr ⟨recIdxAux_pairwise col 0, ?_, ?_⟩
    · exact List.pairwise_singleton _ _
    · intro a ha b hb
      rw [List.mem_singleton.mp hb]
      exact recIdx_lt_length ha
  have hjdec : j < (col.map (Option.map (fun n => n - 1))).length := by
    simpa using hj
  have hcnt : countGe ((recIdx col ++ [col.length]).reverse) j =
      countGe (recIdx col) j + 1 := by
    rw [countGe_reverse, countGe_append]
    have : countGe [col.length] j = 1 := by
      unfold countGe
      simp [Nat.le_of_lt hj]
    rw [this]
  unfold correctPitStops
  rw [hM, foldl_boundaries_get _ _ _ _ hjdec hpair, hcnt,
    if_neg (by omega)]
  simp only [Option.map_some']
  congr 2
  push_cast
  ring
/-- Witness for C2 on the five-lap example: lap 0 receives the
maximum 2 minus the five recorded boundaries, that is -3. -/
theorem C2_pit_correction_witness :
    maxRecorded [some 0, some 0, some 1, some 1, some 2] = some 2 ∧
    0 < ([some 0, some 0, some 1, some 1, some 2] :
      List (Option ℤ)).length ∧
    (correctPitStops [some 0, some 0, some 1, some 1, some 2]).get? 0 =
      some (some ((2 : ℤ) -
        (countGe (recIdx [some 0, some 0, some 1, some 1, some 2]) 0 : ℤ))) := by
  refine ⟨by decide, by decide, ?_⟩
  exact C2_pit_correction [some 0, some 0, some 1, some 1, some 2] 2 0
    (by decide) (by decide)

/-- Claim C3: for a fresh unlocked record receiving non-empty sector
1, 2 and 3 values in order, the time reference keeps base minus delta
at the minimum of the candidate starts seen so far, and the start
inferred at the LastLapTime arrival is the minimum of all three
candidates. -/
theorem C3_time_reference_min (drv v1 v2 v3 v4 : String) (T1 T2 T3 T4 q1 q2 q3 L : ℤ)
    (h1 : parseSecs v1 = some q1) (h1n : v1 ≠ "")
    (h2 : parseSecs v2 = some q2) (h2n : v2 ≠ "")
    (h3 : parseSecs v3 = some q3) (h3n : v3 ≠ "")
    (h4 : parseLap v4 = some L) (h4n : v4 ≠ "") :
    ((processEntries drv [(T1, sectorBlock 0 v1)]).map refStart =
      some (some (T1 - q1))) ∧
    ((processEntries drv [(T1, sectorBlock 0 v1),
        (T2, sectorBlock 1 v2)]).map refStart =
      some (some (min (T1 - q1) (T2 - (q2 + q1))))) ∧
    ((processEntries drv [(T1, sectorBlock 0 v1), (T2, sectorBlock 1 v2),
        (T3, sectorBlock 2 v3)]).map refStart =
      some (some (min (T1 - q1)
        (min (T2 - (q2 + q1)) (T3 - (q3 + q2 + q1)))))) ∧
    ((processEntries drv [(T1, sectorBlock 0 v1), (T2, sectorBlock 1 v2),
        (T3, sectorBlock 2 v3), (T4, llBlock v4)]).map
        (fun s => getNeg s.data.Time 0) =
      some (some (some (min (T1 - q1)
        (min (T2 - (q2 + q1)) (T3 - (q3 + q2 + q1))) + L)))) := by
  have e1 := c3step1 drv v1 T1 q1 h1 h1n
  have e2 := c3step2 drv v1 v2 T2 q1 q2 T1 q1 T1 h2 h2n
  refine ⟨?_, ?_, ?_, ?_⟩
  · simp only [processEntries, runEntries, e1, Option.map_some']
    simp [refStart, getNeg]
  · simp only [processEntries, runEntries, e1, e2, Option.map_some']
    by_cases hc2 : T2 - (q2 + q1) < T1 - q1 <;>
      simp [refStart, getNeg, hc2, min_def] <;> split_ifs <;> omega
  · simp only [processEntries, runEntries, e1, e2]
    by_cases hc2 : T2 - (q2 + q1) < T1 - q1
    · rw [if_pos hc2]
      have e3 := c3step3 drv v1 v2 v3 T3 q1 q2 q3 T2 (q2 + q1) T2 h3 h3n
      simp only [runEntries, e3, Option.map_some']
      by_cases hc3 : T3 - (q3 + q2 + q1) < T2 - (q2 + q1) <;>
        simp [refStart, getNeg, hc3, min_def] <;> split_ifs <;> omega
    · rw [if_neg hc2]
      have e3 := c3step3 drv v1 v2 v3 T3 q1 q2 q3 T1 q1 T2 h3 h3n
      simp only [runEntries, e3, Option.map_some']
      by_cases hc3 : T3 - (q3 + q2 + q1) < T1 - q1 <;>
        simp [refStart, getNeg, hc3, min_def] <;> split_ifs <;> omega
  · simp only [processEntries, runEntries, e1, e2]
    by_cases hc2 : T2 - (q2 + q1) < T1 - q1
    · rw [if_pos hc2]
      have e3 := c3step3 drv v1 v2 v3 T3 q1 q2 q3 T2 (q2 + q1) T2 h3 h3n
      simp only [runEntries, e3]
      by_cases hc3 : T3 - (q3 + q2 + q1) < T2 - (q2 + q1)
      · rw [if_pos hc3]
        have e4 := c3step4 drv v1 v2 v3 v4 T4 q1 L T3 (q3 + q2 + q1) T3
          (some q2) (some q3) h4 h4n
        simp only [runEntries, e4, Option.map_some']
        simp [getNeg, min_def]
        split_ifs <;> omega
      · rw [if_neg hc3]
        have e4 := c3step4 drv v1 v2 v3 v4 T4 q1 L T2 (q2 + q1) T3
          (some q2) (some q3) h4 h4n
        simp only [runEntries, e4, Option.map_some']
        simp [getNeg, min_def]
        split_ifs <;> omega
    · rw [if_neg hc2]
      have e3 := c3step3 drv v1 v2 v3 T3 q1 q2 q3 T1 q1 T2 h3 h3n
      simp only [runEntries, e3]
      by_cases hc3 : T3 - (q3 + q2 + q1) < T1 - q1
      · rw [if_pos hc3]
        have e4 := c3step4 drv v1 v2 v3 v4 T4 q1 L T3 (q3 + q2 + q1) T3
          (some q2) (some q3) h4 h4n
        simp only [runEntries, e4, Option.map_some']
        simp [getNeg, min_def]
        split_ifs <;> omega
      · rw [if_neg hc3]
        have e4 := c3step4 drv v1 v2 v3 v4 T4 q1 L T1 q1 T3
          (some q2) (some q3) h4 h4n
        simp only [runEntries, e4, Option.map_some']
        simp [getNeg, min_def]
        split_ifs <;> omega
/-- Witness for C3 at concrete sector values 20.0, 25.0 and 30.0
seconds and a 1:20.5 lap time. -/
theorem C3_time_reference_min_witness :
    parseSecs "20.0" = some 20000000000 ∧
    parseLap "1:20.5" = some 80500000000 ∧
    (processEntries "44" [(100000000000, sectorBlock 0 "20.0"),
        (124000000000, sectorBlock 1 "25.0"),
        (152000000000, sectorBlock 2 "30.0"),
        (160000000000, llBlock "1:20.5")]).map
        (fun s => getNeg s.data.Time 0) =
      some (some (some (min (100000000000 - 20000000000)
        (min (124000000000 - (25000000000 + 20000000000))
          (152000000000 - (30000000000 + 25000000000 + 20000000000))) +
        80500000000))) := by
  refine ⟨by decide, by decide, ?_⟩
  exact (C3_time_reference_min "44" "20.0" "25.0" "30.0" "1:20.5"
    100000000000 124000000000 152000000000 160000000000
    20000000000 25000000000 30000000000 80500000000
    (by decide) (by decide) (by decide) (by decide) (by decide) (by decide)
    (by decide) (by decide)).2.2.2

/-- Counterexample to claim C4 as stated: after a LastLapTime arrival
locks a record's timestamp at 160 seconds, a second LastLapTime
arrival for the same record rewrites it to 161 seconds. -/
theorem C4_counterexample :
    ((processEntries "44" [(100000000000, sectorBlock 0 "20.0"),
        (105000000000, llBlock "1:20.0")]).map
        (fun s => (getNeg s.data.Time 0, getNeg s.flags.locked_times 0)) =
      some (some (some 160000000000), some true)) ∧
    ((processEntries "44" [(100000000000, sectorBlock 0 "20.0"),
        (105000000000, llBlock "1:20.0"),
        (106000000000, llBlock "1:21.0")]).map
        (fun s => getNeg s.data.Time 0) =
      some (some (some 161000000000))) ∧
    (161000000000 : ℤ) ≠ 160000000000 := by decide

/-- Claim C4 (amended): once a record is locked, neither the per-packet
timestamp write nor any sector-driven heuristic update changes its
stored timestamp; only a block carrying a non-empty LastLapTime value
can still rewrite it. -/
theorem C4_locked_time_preserved (driver : String) (T : ℤ) (b : Block)
    (s s1 : DriverState) (slot : ℕ)
    (hsel : selectSlot s.data.Time T = some slot)
    (hlkk : getNeg s.flags.locked_times slot = some true)
    (hllt : b.LastLapTime = none ∨ b.LastLapTime = some none ∨
      b.LastLapTime = some (some ""))
    (hrun : lapsEntryCore driver T b s = some s1) :
    ∀ k, k < s.data.Time.length →
      s1.data.Time.get? k = s.data.Time.get? k := by
  have hd0 : (applyPitStops b slot
      (applyTimeDriver driver T slot (!true) s.data)).Time = s.data.Time := by
    unfold applyPitStops applyTimeDriver
    split <;> rfl
  have hmain : ∀ df : DriverData × DriverFlags, df.1.Time = s.data.Time →
      applyLapClose b (df.1, df.2) = s1 →
      ∀ k, k < s.data.Time.length →
        s1.data.Time.get? k = s.data.Time.get? k := by
    intro df hdfT hfin k hk
    subst hfin
    unfold applyLapClose
    rcases b.NumberOfLaps with - | nl
    · simp [hdfT]
    · simp only [appendNoneAll]
      rw [List.get?_append]
      · simp [hdfT]
      · simpa [hdfT] using hk
  rcases hbSec : b.Sectors with - | su
  · simp only [lapsEntryCore, hsel, hlkk, hbSec, Option.bind_eq_bind,
      Option.some_bind, Option.pure_def, Option.bind_eq_some,
      Option.some.injEq] at hrun
    obtain ⟨r0, hr0, df2, hdf2, hfin⟩ := hrun
    rw [applyLastLap_skip b slot _ hllt, Option.some.injEq] at hdf2
    refine hmain df2 ?_ hfin
    rw [← hdf2]
    exact (applyMid_time b T slot _).trans hd0
  · simp only [lapsEntryCore, hsel, hlkk, hbSec, Option.bind_eq_bind,
      Option.some_bind, Option.pure_def, Option.bind_eq_some,
      Option.some.injEq] at hrun
    obtain ⟨r0, hr0, y, hy, df2, hdf2, hfin⟩ := hrun
    rw [applyLastLap_skip b slot _ hllt, Option.some.injEq] at hdf2
    refine hmain df2 ?_ hfin
    rw [← hdf2]
    exact (applyMid_time b T slot _).trans
      ((foldlM_procSector_time _ _ _ _ _ _ hy).trans hd0)

/-- Witness for C4 on a locked single-record state hit by a pit-stop
update: the stored timestamp survives unchanged. -/
theorem C4_locked_time_preserved_witness :
    selectSlot lockedState.data.Time 106000000000 = some 0 ∧
    getNeg lockedState.flags.locked_times 0 = some true ∧
    ((lapsEntryCore "44" 106000000000 (pitBlock 3) lockedState).map
      (fun s1 => s1.data.Time.get? 0)) = some (lockedState.data.Time.get? 0) := by
  refine ⟨by decide, by decide, ?_⟩
  obtain ⟨s1, h1⟩ : ∃ x,
      lapsEntryCore "44" 106000000000 (pitBlock 3) lockedState = some x :=
    ⟨_, rfl⟩
  rw [h1, Option.map_some']
  exact congrArg some (C4_locked_time_preserved "44" 106000000000 (pitBlock 3)
    lockedState s1 0 (by decide) (by decide) (Or.inl rfl) h1 0 (by decide))

/-- Claim C5: a frame block of the gap stream emits a row exactly when
Position, GapToLeader or a valued IntervalToPositionAhead is present,
and the emitted row carries each unset field forward from the previous
row or null when there is none, leaving every column the same length. -/
theorem C5_gap_stream (driver : String) (T : ℤ) (b : StreamBlock)
    (d : StreamData) (h : streamWF d) :
    ((streamEntry driver T b d).Time.length = d.Time.length + 1 ↔
      (b.Position.isSome = true ∨ b.GapToLeader.isSome = true ∨
        (∃ v, b.IntervalToPositionAhead = some (some v)))) ∧
    ((¬ (b.Position.isSome = true ∨ b.GapToLeader.isSome = true ∨
        (∃ v, b.IntervalToPositionAhead = some (some v)))) →
      streamEntry driver T b d = d) ∧
    ((b.Position.isSome = true ∨ b.GapToLeader.isSome = true ∨
        (∃ v, b.IntervalToPositionAhead = some (some v))) →
      streamWF (streamEntry driver T b d) ∧
      lastVal (streamEntry driver T b d).Position =
        (match b.Position with
         | some v => some v
         | none => lastVal d.Position) ∧
      lastVal (streamEntry driver T b d).GapToLeader =
        (match b.GapToLeader with
         | some v => some v
         | none => lastVal d.GapToLeader) ∧
      lastVal (streamEntry driver T b d).IntervalToPositionAhead =
        (match b.IntervalToPositionAhead with
         | some (some v) => some v
         | _ => lastVal d.IntervalToPositionAhead)) := by
  obtain ⟨hD, hP, hG, hI⟩ := h
  have hfull : ∀ l : List (Option String), l.length = d.Time.length →
      ∀ x : Option String, padCol (l ++ [x]) (d.Time ++ [T]).length = l ++ [x] := by
    intro l hl x
    exact padCol_full _ _ (by simp [hl]) (by simp)
  have hshort : ∀ l : List (Option String), l.length = d.Time.length →
      padCol l (d.Time ++ [T]).length = l ++ [lastVal l] := by
    intro l hl
    exact padCol_short _ _ (by simp [hl])
  rcases b with ⟨p, g, i⟩
  refine ⟨?_, ?_, ?_⟩
  · rcases p with - | pv <;> rcases g with - | gv <;> rcases i with - | (- | iv) <;>
      simp [streamEntry, emitsRow]
  · rcases p with - | pv <;> rcases g with - | gv <;> rcases i with - | (- | iv) <;>
      simp [streamEntry, emitsRow]
  · intro hpres
    rcases p with - | pv <;> rcases g with - | gv <;> rcases i with - | (- | iv) <;>
      [exact absurd hpres (by simp); exact absurd hpres (by simp);
       skip; skip; skip; skip; skip; skip; skip; skip; skip; skip] <;>
      simp only [streamEntry, emitsRow, Option.isSome_none, Option.isSome_some,
        Bool.or_false, Bool.false_or, Bool.or_true, Bool.true_or, Bool.or_self,
        if_true, if_false] <;>
      (try rw [hfull d.Position hP]) <;>
      (try rw [hshort d.Position hP]) <;>
      (try rw [hfull d.GapToLeader hG]) <;>
      (try rw [hshort d.GapToLeader hG]) <;>
      (try rw [hfull d.IntervalToPositionAhead hI]) <;>
      (try rw [hshort d.IntervalToPositionAhead hI]) <;>
      exact ⟨⟨by simp [hD], by simp [hP], by simp [hG], by simp [hI]⟩,
        lastVal_append _ _, lastVal_append _ _, lastVal_append _ _⟩

/-- Witness for C5: a position-only block appended to a one-row stream
state emits a second row that keeps the previous gap value. -/
theorem C5_gap_stream_witness :
    streamWF oneRowStream ∧
    (streamEntry "44" 20 ⟨some "4", none, none⟩ oneRowStream).Time.length =
      oneRowStream.Time.length + 1 ∧
    lastVal (streamEntry "44" 20 ⟨some "4", none, none⟩
      oneRowStream).GapToLeader = some "1.2" := by
  have h := C5_gap_stream "44" 20 ⟨some "4", none, none⟩ oneRowStream
    (by refine ⟨?_, ?_, ?_, ?_⟩ <;> decide)
  obtain ⟨hwf2, hPo, hG, hI⟩ := h.2.2 (Or.inl rfl)
  refine ⟨by refine ⟨?_, ?_, ?_, ?_⟩ <;> decide, h.1.mpr (Or.inl rfl), ?_⟩
  rw [hG]
  decide

/-- Counterexample to claim C6 as stated: with the example lap times
10, 20, 30, 40 and stint rows at 5 and 25 (seed 0 each), a driver
whose lap Stint values are all equal gets tyre lives 1, 2, 3, 4, not
the claimed 1, 2, 1, 2: the renumbering groups by the laps' own Stint
value, not by the as-of matched stint row. -/
theorem C6_counterexample :
    (summaryDriver [⟨10, 1⟩, ⟨20, 1⟩, ⟨30, 1⟩, ⟨40, 1⟩]
        [⟨5, 0⟩, ⟨25, 0⟩]).map (fun r => r.tyreLife) =
      [some 1, some 2, some 3, some 4] ∧
    ([some 1, some 2, some 3, some 4] : List (Option ℤ)) ≠
      [some 1, some 2, some 1, some 2] := by decide

/-- Claim C6 (amended): the renumbering groups laps by their own Stint
value (pit-stop count plus one); when those values align with the tyre
changes, Stint 1 for the laps at 10 and 20 and Stint 2 for the laps at
30 and 40, the example yields tyre lives 1, 2, 1, 2. -/
theorem C6_tyre_life :
    (summaryDriver [⟨10, 1⟩, ⟨20, 1⟩, ⟨30, 2⟩, ⟨40, 2⟩]
        [⟨5, 0⟩, ⟨25, 0⟩]).map (fun r => r.tyreLife) =
      [some 1, some 2, some 1, some 2] := by decide

/-- Claim C7: a Sectors update supplied as a three-element list and
the same update supplied as the keyed map with indices 0, 1, 2 drive
the step to identical results, so in particular identical Sector1Time,
Sector2Time and Sector3Time values. -/
theorem C7_sectors_list_map (driver : String) (T : ℤ) (s : DriverState)
    (e0 e1 e2 : SectorEntry) :
    lapsEntryCore driver T
        { emptyBlock with Sectors := some (.ofList [e0, e1, e2]) } s =
    lapsEntryCore driver T
        { emptyBlock with
          Sectors := some (.ofMap [(0, e0), (1, e1), (2, e2)]) } s := by
  have hps : ∀ (sl : ℕ) (d : DriverData),
      applyPitStops { emptyBlock with
        Sectors := some (.ofList [e0, e1, e2]) } sl d =
      applyPitStops { emptyBlock with
        Sectors := some (.ofMap [(0, e0), (1, e1), (2, e2)]) } sl d :=
    fun _ _ => rfl
  have hsp : ∀ (sl : ℕ) (d : DriverData),
      applySpeeds { emptyBlock with
        Sectors := some (.ofList [e0, e1, e2]) } sl d =
      applySpeeds { emptyBlock with
        Sectors := some (.ofMap [(0, e0), (1, e1), (2, e2)]) } sl d :=
    fun _ _ => rfl
  have hpo : ∀ (sl : ℕ) (d : DriverData),
      applyPitOut { emptyBlock with
        Sectors := some (.ofList [e0, e1, e2]) } T sl d =
      applyPitOut { emptyBlock with
        Sectors := some (.ofMap [(0, e0), (1, e1), (2, e2)]) } T sl d :=
    fun _ _ => rfl
  have hip : ∀ (sl : ℕ) (d : DriverData),
      applyInPit { emptyBlock with
        Sectors := some (.ofList [e0, e1, e2]) } T sl d =
      applyInPit { emptyBlock with
        Sectors := some (.ofMap [(0, e0), (1, e1), (2, e2)]) } T sl d :=
    fun _ _ => rfl
  have hll : ∀ (sl : ℕ) (df : DriverData × DriverFlags),
      applyLastLap { emptyBlock with
        Sectors := some (.ofList [e0, e1, e2]) } sl df =
      applyLastLap { emptyBlock with
        Sectors := some (.ofMap [(0, e0), (1, e1), (2, e2)]) } sl df :=
    fun _ _ => rfl
  have hlc : ∀ df : DriverData × DriverFlags,
      applyLapClose { emptyBlock with
        Sectors := some (.ofList [e0, e1, e2]) } df =
      applyLapClose { emptyBlock with
        Sectors := some (.ofMap [(0, e0), (1, e1), (2, e2)]) } df :=
    fun _ => rfl
  have h : sectorPairs (.ofList [e0, e1, e2]) =
      sectorPairs (.ofMap [(0, e0), (1, e1), (2, e2)]) := rfl
  simp only [lapsEntryCore, hps, hsp, hpo, hip, hll, hlc, h]

/-- Counterexample to claim C8 as stated: a final record whose only
populated informative field is a recorded pit-stop count of zero is
dropped even though the field is populated, because the any() test
treats zero as empty. -/
theorem C8_counterexample :
    (processEntries "44" [(10, pitBlock 0)]).map
        (fun s => ((trimLast s.data).Time.length,
          getNeg s.data.NumberOfPitStops 0)) =
      some (0, some (some 0)) ∧
    (some (some (0 : ℤ)) : Option (Option ℤ)) ≠ some none := by decide

/-- Claim C8 (amended): the final record is dropped exactly when every
informative field of its row is falsy, that is missing, an empty
string, or zero; any non-zero, non-empty value retains it. -/
theorem C8_trim_falsy (d : DriverData) :
    (((lastVal d.LastLapTime = none ∨ lastVal d.LastLapTime = some "") ∧
      (lastVal d.NumberOfLaps = none ∨ lastVal d.NumberOfLaps = some 0) ∧
      (lastVal d.NumberOfPitStops = none ∨ lastVal d.NumberOfPitStops = some 0) ∧
      (lastVal d.PitOutTime = none ∨ lastVal d.PitOutTime = some 0) ∧
      (lastVal d.PitInTime = none ∨ lastVal d.PitInTime = some 0) ∧
      (lastVal d.Sector1Time = none ∨ lastVal d.Sector1Time = some "") ∧
      (lastVal d.Sector2Time = none ∨ lastVal d.Sector2Time = some "") ∧
      (lastVal d.Sector3Time = none ∨ lastVal d.Sector3Time = some "") ∧
      (lastVal d.SpeedI1 = none ∨ lastVal d.SpeedI1 = some "") ∧
      (lastVal d.SpeedI2 = none ∨ lastVal d.SpeedI2 = some "") ∧
      (lastVal d.SpeedFL = none ∨ lastVal d.SpeedFL = some "") ∧
      (lastVal d.SpeedST = none ∨ lastVal d.SpeedST = some "")) →
      trimLast d = dropLastAll d) ∧
    ((¬ ((lastVal d.LastLapTime = none ∨ lastVal d.LastLapTime = some "") ∧
      (lastVal d.NumberOfLaps = none ∨ lastVal d.NumberOfLaps = some 0) ∧
      (lastVal d.NumberOfPitStops = none ∨ lastVal d.NumberOfPitStops = some 0) ∧
      (lastVal d.PitOutTime = none ∨ lastVal d.PitOutTime = some 0) ∧
      (lastVal d.PitInTime = none ∨ lastVal d.PitInTime = some 0) ∧
      (lastVal d.Sector1Time = none ∨ lastVal d.Sector1Time = some "") ∧
      (lastVal d.Sector2Time = none ∨ lastVal d.Sector2Time = some "") ∧
      (lastVal d.Sector3Time = none ∨ lastVal d.Sector3Time = some "") ∧
      (lastVal d.SpeedI1 = none ∨ lastVal d.SpeedI1 = some "") ∧
      (lastVal d.SpeedI2 = none ∨ lastVal d.SpeedI2 = some "") ∧
      (lastVal d.SpeedFL = none ∨ lastVal d.SpeedFL = some "") ∧
      (lastVal d.SpeedST = none ∨ lastVal d.SpeedST = some ""))) →
      trimLast d = d) := by
  have hiff : lastRowAny d = false ↔
      ((lastVal d.LastLapTime = none ∨ lastVal d.LastLapTime = some "") ∧
      (lastVal d.NumberOfLaps = none ∨ lastVal d.NumberOfLaps = some 0) ∧
      (lastVal d.NumberOfPitStops = none ∨ lastVal d.NumberOfPitStops = some 0) ∧
      (lastVal d.PitOutTime = none ∨ lastVal d.PitOutTime = some 0) ∧
      (lastVal d.PitInTime = none ∨ lastVal d.PitInTime = some 0) ∧
      (lastVal d.Sector1Time = none ∨ lastVal d.Sector1Time = some "") ∧
      (lastVal d.Sector2Time = none ∨ lastVal d.Sector2Time = some "") ∧
      (lastVal d.Sector3Time = none ∨ lastVal d.Sector3Time = some "") ∧
      (lastVal d.SpeedI1 = none ∨ lastVal d.SpeedI1 = some "") ∧
      (lastVal d.SpeedI2 = none ∨ lastVal d.SpeedI2 = some "") ∧
      (lastVal d.SpeedFL = none ∨ lastVal d.SpeedFL = some "") ∧
      (lastVal d.SpeedST = none ∨ lastVal d.SpeedST = some "")) := by
    simp only [lastRowAny, Bool.or_eq_false_iff, truthyS_false, truthyZ_false,
      and_assoc]
  constructor
  · intro hc
    unfold trimLast
    rw [if_neg]
    simp [hiff.mpr hc]
  · intro hnc
    unfold trimLast
    rw [if_pos]
    rcases h : lastRowAny d with - | -
    · exact absurd (hiff.mp h) hnc
    · rfl
/-- Witness for C8: the freshly initialised all-none record is
dropped. -/
theorem C8_trim_falsy_witness :
    trimLast initDriverState.data = dropLastAll initDriverState.data :=
  (C8_trim_falsy initDriverState.data).1 (by decide)

/-- Counterexample to claim C9 as stated: a quoted non-compressed
payload is returned stripped of its quotes, not unchanged, and a
payload opening a JSON object that the JSON reader rejects raises
instead of degrading, aborting the surrounding stream. -/
theorem C9_counterexample :
    parsePayload (fun s => (none : Option String)) (fun _ => none)
        "\"abc\"" false = .ok (.raw "abc") ∧
    ("\"abc\"" : String) ≠ "abc" ∧
    parsePayload (fun s => (none : Option String)) (fun _ => none)
        (String.mk [lbrace, 'x']) false = .error .jsonError := by
  refine ⟨rfl, by decide, rfl⟩

/-- Claim C9 (amended): a payload opening with a brace decodes as JSON
when the reader accepts it; otherwise the quote-stripped text is
inflated and re-decoded on a compressed channel, and on an
uncompressed channel it is returned as the quote-stripped opaque
string with a warning. -/
theorem C9_parse_cases {J : Type} (jl : String → Option J)
    (infl : String → Option String) (text : String) (c : Char) (v : J)
    (t2 : String) :
    (pyFirst text = some lbrace → jl text = some v →
      ∀ zipped, parsePayload jl infl text zipped = .ok (.jsonVal v)) ∧
    (pyFirst text = some c → c ≠ lbrace →
      infl (if c = '"' then stripQuotes text else text) = some t2 →
      parsePayload jl infl text true = parseFlat jl t2) ∧
    (pyFirst text = some c → c ≠ lbrace →
      parsePayload jl infl text false =
        .ok (.raw (if c = '"' then stripQuotes text else text))) := by
  refine ⟨?_, ?_, ?_⟩
  · intro h1 h2 z
    simp [parsePayload, h1, h2]
  · intro h1 h2 h3
    simp [parsePayload, h1, h2, h3]
  · intro h1 h2
    simp [parsePayload, h1, h2]
/-- Witness for C9 on a quoted uncompressed payload. -/
theorem C9_parse_cases_witness :
    parsePayload (fun s => some s) (fun s => some s) "\"abc\"" false =
      .ok (.raw "abc") := by
  have h := (C9_parse_cases (fun s => some s) (fun s => some s)
    "\"abc\"" '"' "j" "t").2.2 rfl (by decide)
  exact h.trans (by rfl)

/-- Claim C10: any successfully processed frame sequence leaves every
column list and both flag lists of the driver state with one slot per
record, all of the same length, so the negative indices used by slot
selection, the heuristic and locking address the same logical record
in every list. -/
theorem C10_parallel_lengths (driver : String) (es : List (ℤ × Block)) (s : DriverState)
    (h : processEntries driver es = some s) :
    wfDims s s.data.Time.length := by
  have hinit : wfDims initDriverState 1 := by
    constructor <;> simp [wfData, wfFlags, initDriverState]
  obtain ⟨m, hm⟩ := wf_runEntries driver es initDriverState s 1 hinit h
  have hmt : m = s.data.Time.length := hm.1.1.symm
  rwa [← hmt]
/-- Witness for C10 on a two-entry trace that closes a lap. -/
theorem C10_parallel_lengths_witness :
    ∃ s, processEntries "44" [(10, pitBlock 0),
        (11, { emptyBlock with NumberOfLaps := some 1 })] = some s ∧
      wfDims s s.data.Time.length := by
  obtain ⟨s, hs⟩ : ∃ s, processEntries "44" [(10, pitBlock 0),
      (11, { emptyBlock with NumberOfLaps := some 1 })] = some s := ⟨_, rfl⟩
  exact ⟨s, hs, C10_parallel_lengths "44" _ s hs⟩

end FastF1
